import Mathlib

/-!
Verification development for the Bill Receipt Manager web application
(`webapp/main.py`).  The definitions below are a shallow embedding of the
report rendering pipeline: the SQL selection of bills for a month, the
per-bill page layout (metadata text plus an aspect-preserving thumbnail of
the receipt image), the synthetic empty page, and the serialization of the
page list to the report file.  Machine details that the claims depend on
(SQL LIKE matching, Pillow's thumbnail rounding, the filesystem operations
performed when saving) are embedded faithfully from the corresponding
source behaviour.
-/

namespace BillReceipt

/-- One row of the `bills` table as seen by the report query
(`SELECT filename, amount, bill_date, bill_time, shop`), together with the
row id and owner.  `amount` is stored as its rendered decimal string (the
page text interpolates the stored REAL value directly). -/
structure Bill where
  id : Nat
  user_id : Nat
  filename : String
  amount : String
  bill_date : String
  bill_time : String
  shop : String
  deriving DecidableEq

/-- ASCII-only case folding used by SQL LIKE: an upper-case ASCII letter is
folded onto the code point of its lower-case form; every other character is
compared by its own code point. -/
def likeFold (c : Char) : Nat :=
  if 65 ≤ c.toNat && c.toNat ≤ 90 then c.toNat + 32 else c.toNat

/-- SQL LIKE pattern matching over character lists: a percent sign matches
any (possibly empty) sequence, an underscore matches exactly one character,
and any other pattern character matches case-insensitively (ASCII). -/
def likeMatch : List Char → List Char → Bool
  | [], s => s.isEmpty
  | p :: ps, s =>
    if p = '%' then s.tails.any (fun t => likeMatch ps t)
    else if p = '_' then
      match s with
      | [] => false
      | _ :: cs => likeMatch ps cs
    else
      match s with
      | [] => false
      | c :: cs => (likeFold p == likeFold c) && likeMatch ps cs

/-- The WHERE clause of the report query:
`user_id = ? AND bill_date LIKE ?` with the pattern `f"{year_month}%"`. -/
def matchesQuery (uid : Nat) (ym : String) (b : Bill) : Bool :=
  b.user_id == uid && likeMatch (ym.data ++ ['%']) b.bill_date.data

/-- Byte-order (BINARY collation) lexicographic comparison used by
`ORDER BY bill_date` on a TEXT column; on UTF-8 this coincides with
code-point order. -/
def charListLe : List Char → List Char → Bool
  | [], _ => true
  | _ :: _, [] => false
  | a :: as, b :: bs => a < b || (a == b && charListLe as bs)

/-- Non-decreasing date order between two bills, as produced by
`ORDER BY bill_date`. -/
def dateLe (a b : Bill) : Bool :=
  charListLe a.bill_date.data b.bill_date.data

/-- Characterisation of a result list of the report query
`SELECT ... WHERE user_id = ? AND bill_date LIKE ? ORDER BY bill_date`:
it is some permutation of the matching rows that is sorted by `bill_date`.
No secondary sort key appears in the query, so the order among rows with
equal `bill_date` is not constrained. -/
def IsFetchResult (db : List Bill) (uid : Nat) (ym : String) (res : List Bill) : Prop :=
  List.Perm res (db.filter (matchesQuery uid ym)) ∧
  List.Pairwise (fun a b => dateLe a b = true) res

instance (db : List Bill) (uid : Nat) (ym : String) (res : List Bill) :
    Decidable (IsFetchResult db uid ym res) :=
  inferInstanceAs (Decidable (And _ _))

/-- Origin of the pixels placed on a page: either the decoded stored image
or the flat gray placeholder produced on a load failure. -/
inductive ImgSrc where
  | file (name : String)
  | placeholderGray
  deriving DecidableEq

/-- An in-memory image: dimensions plus the origin of its pixels. -/
structure Img where
  width : Nat
  height : Nat
  src : ImgSrc
  deriving DecidableEq

/-- Embedding of `Image.open(path).convert("RGB")` guarded by
`try ... except`: the store gives the dimensions of a readable, decodable
image, and on any failure a gray 200x200 square is substituted
(`Image.new("RGB", (200, 200), "gray")`). -/
def resolveImage (store : String → Option (Nat × Nat)) (fname : String) : Img :=
  match store fname with
  | some (w, h) => ⟨w, h, ImgSrc.file fname⟩
  | none => ⟨200, 200, ImgSrc.placeholderGray⟩

/-- Ceiling division on naturals, `(a + b - 1) / b`. -/
def ceilDiv (a b : Nat) : Nat := (a + b - 1) / b

/-- Width chosen by Pillow's `round_aspect` in the pinned-height branch of
`Image.thumbnail`: between the floor and the ceiling of `A / h`
(`A = boxHeight * width`), whichever makes the aspect error
`abs (A - n * h)` smaller, the floor on a tie. -/
def pickX (A h : Nat) : Nat :=
  if A - A / h * h ≤ ceilDiv A h * h - A then A / h else ceilDiv A h

/-- Height chosen by Pillow's `round_aspect` in the pinned-width branch of
`Image.thumbnail`: between the floor and the ceiling of `B / w`
(`B = boxWidth * height`), minimising the aspect error
`abs (aspect - boxWidth / n)` with a zero candidate treated as error 0. -/
def pickY (B w : Nat) : Nat :=
  if B / w = 0 then 0
  else if (B - w * (B / w)) * ceilDiv B w ≤ (w * ceilDiv B w - B) * (B / w) then B / w
  else ceilDiv B w

/-- Embedding of Pillow's `Image.thumbnail((bw, bh))` size computation with
exact arithmetic in place of the source's floating point: if the image
already fits inside the box it is left untouched; otherwise one axis is
pinned to the box and the other is rounded from the exact aspect-preserving
value, clamped to at least 1. -/
def thumbnailDims (bw bh w h : Nat) : Nat × Nat :=
  if w ≤ bw ∧ h ≤ bh then (w, h)
  else if bh * w ≤ bw * h then (max (pickX (bh * w) h) 1, bh)
  else (bw, max (pickY (bw * h) w) 1)

/-- The call `bill_img.thumbnail((max_width, max_height))` with
`max_width, max_height = 555, 600`. -/
def thumbnailImg (img : Img) : Img :=
  let d := thumbnailDims 555 600 img.width img.height
  ⟨d.1, d.2, img.src⟩

/-- An image pasted on the page at a fixed position. -/
structure PlacedImage where
  x : Nat
  y : Nat
  img : Img
  deriving DecidableEq

/-- One page of the report: a fixed-size canvas with a text block and an
optional pasted image. -/
structure Page where
  width : Nat
  height : Nat
  text : String
  textX : Nat
  textY : Nat
  image : Option PlacedImage
  deriving DecidableEq

/-- The metadata block drawn on a bill's page:
`f"Shop: {shop}\nAmount: {amount}\nDate: {bill_date} {bill_time}"`. -/
def metadataText (b : Bill) : String :=
  "Shop: " ++ b.shop ++ "\n" ++ "Amount: " ++ b.amount ++ "\n" ++
    "Date: " ++ b.bill_date ++ " " ++ b.bill_time

/-- Layout of one bill's page: a white 595x842 canvas, the metadata text at
(20, 20), and the resolved image thumbnailed into a 555x600 box and pasted
at (20, 150). -/
def layoutPage (store : String → Option (Nat × Nat)) (b : Bill) : Page :=
  { width := 595, height := 842, text := metadataText b, textX := 20, textY := 20,
    image := some ⟨20, 150, thumbnailImg (resolveImage store b.filename)⟩ }

/-- The synthetic page appended when no bills match: a white 595x842 canvas
carrying only the fixed message drawn at (20, 400) and no image. -/
def emptyPage : Page :=
  { width := 595, height := 842, text := "No bills found for this month.",
    textX := 20, textY := 400, image := none }

/-- The page list handed to the serializer: one page per fetched bill, and
the single synthetic page when the list would otherwise be empty. -/
def composePages (store : String → Option (Nat × Nat)) (bills : List Bill) : List Page :=
  let pages := bills.map (layoutPage store)
  if pages.isEmpty then [emptyPage] else pages

/-- A filesystem operation performed while materialising the report. -/
inductive FsOp where
  | openTrunc (path : String)
  | writeChunk (path : String) (idx : Nat)
  | renameOp (src : String) (dst : String)
  deriving DecidableEq

/-- The destination of the report file:
`os.path.join("user_data", f"report_{user_id}_{year_month}.pdf")`. -/
def reportPath (uid : Nat) (ym : String) : String :=
  "user_data/" ++ "report_" ++ toString uid ++ "_" ++ ym ++ ".pdf"

/-- Trace of filesystem operations performed by
`pages[0].save(report_path, save_all=True, append_images=pages[1:])`:
Pillow opens the destination path itself for writing (truncating any
previous content) and streams the encoded pages into it, one chunk per
page.  No temporary file and no rename are involved. -/
def saveTrace (path : String) (pages : List Page) : List FsOp :=
  FsOp.openTrunc path :: (List.range pages.length).map (fun i => FsOp.writeChunk path i)

/-- Whether an operation makes content appear at (or removes content from)
the given path. -/
def touches (op : FsOp) (path : String) : Bool :=
  match op with
  | FsOp.openTrunc p => p == path
  | FsOp.writeChunk p _ => p == path
  | FsOp.renameOp _ dst => dst == path

/-- Whether an operation is a rename whose destination is the given path. -/
def isRenameTo (op : FsOp) (path : String) : Bool :=
  match op with
  | FsOp.renameOp _ dst => dst == path
  | _ => false

/-- Modelled from the spec's words (section 5): an atomic publish writes
only to a temporary location and the single last operation of the trace is
a rename into the published path; no earlier operation touches the
published path. -/
def AtomicPublishSpec (trace : List FsOp) (published : String) : Prop :=
  (∀ op ∈ trace.dropLast, touches op published = false) ∧
  ∃ last, trace.getLast? = some last ∧ isRenameTo last published = true

/-- Saving the document: `pages[0].save(...)` indexes the first page, so a
save is only attempted (and a trace produced) for a non-empty page list. -/
def saveDocument (path : String) (pages : List Page) : Option (List FsOp) :=
  match pages with
  | [] => none
  | _ :: _ => some (saveTrace path pages)

/-- The response built at the end of `monthly_report`:
`FileResponse(path=report_path, filename=f"report_{year_month}.pdf",
media_type="application/pdf")`. -/
structure ReportResponse where
  path : String
  filename : String
  media_type : String
  deriving DecidableEq

/-- The concrete response values for a given owner and month. -/
def reportResponse (uid : Nat) (ym : String) : ReportResponse :=
  { path := reportPath uid ym,
    filename := "report_" ++ ym ++ ".pdf",
    media_type := "application/pdf" }

/-- The month bucket used by the stats endpoint:
`month = bill_date[:7]`. -/
def statsMonth (b : Bill) : List Char := b.bill_date.data.take 7

/-- Whether a bill contributes to the monthly total reported for key `K`
by the stats endpoint: the bill belongs to the user and its derived month
bucket equals `K`. -/
def statsGroupsTo (uid : Nat) (K : String) (b : Bill) : Bool :=
  b.user_id == uid && (statsMonth b == K.data)

/-- A digit character, by code point. -/
def isDigit (c : Char) : Bool := 48 ≤ c.toNat && c.toNat ≤ 57

/-- A well-formed month key: exactly `YYYY-MM`, four digits, a dash, two
digits. -/
def wellFormedKey (K : String) : Bool :=
  match K.data with
  | [y1, y2, y3, y4, sep, m1, m2] =>
    isDigit y1 && isDigit y2 && isDigit y3 && isDigit y4 &&
      sep == '-' && isDigit m1 && isDigit m2
  | _ => false

/-- A pattern character with no special LIKE behaviour: not a wildcard and
not an ASCII letter (so ASCII case folding leaves it and can make nothing
else collide with it). -/
def plainLikeChar (c : Char) : Prop :=
  c.toNat ≠ 37 ∧ c.toNat ≠ 95 ∧
    ¬(97 ≤ c.toNat ∧ c.toNat ≤ 122) ∧ ¬(65 ≤ c.toNat ∧ c.toNat ≤ 90)

/-- An image store on which every read fails, used as a concrete input. -/
def store0 : String → Option (Nat × Nat) := fun _ => none

/-- A concrete bill used as a concrete input. -/
def b1 : Bill := ⟨1, 1, "r1.jpg", "12.5", "2024-03-02", "10:00", "ShopA"⟩

/-- A concrete bill sharing its `bill_date` with `bB`. -/
def bA : Bill := ⟨1, 1, "a.jpg", "5.0", "2024-03-10", "10:00", "Alpha"⟩

/-- A concrete bill sharing its `bill_date` with `bA` but with a larger id. -/
def bB : Bill := ⟨2, 1, "b.jpg", "7.0", "2024-03-10", "11:00", "Beta"⟩

/-- A concrete bills table holding two bills with equal dates. -/
def dbTie : List Bill := [bA, bB]

/-- C1: For every owner and month key with N ≥ 1 matching receipt records, the
generated report document has exactly N pages, one page per record (the page
list is the image of the fetched record list under the page layout), and each
page's metadata text contains that record's shop, then amount, then date and
time, in that order, each on its own line. -/
theorem C1_one_page_per_record (db : List Bill) (uid : Nat) (ym : String)
    (store : String → Option (Nat × Nat)) (res : List Bill)
    (hres : IsFetchResult db uid ym res)
    (hne : db.filter (matchesQuery uid ym) ≠ []) :
    (composePages store res).length = (db.filter (matchesQuery uid ym)).length ∧
    composePages store res = res.map (layoutPage store) ∧
    ∀ b : Bill, (layoutPage store b).text =
      "Shop: " ++ b.shop ++ "\n" ++ "Amount: " ++ b.amount ++ "\n" ++
        "Date: " ++ b.bill_date ++ " " ++ b.bill_time := by
  have hresne : res ≠ [] := by
    intro h
    subst h
    exact hne (List.Perm.eq_nil hres.1.symm)
  have hmap : (res.map (layoutPage store)).isEmpty = false := by
    cases res with
    | nil => exact absurd rfl hresne
    | cons a l => rfl
  refine ⟨?_, ?_, fun b => rfl⟩
  · simp [composePages, hmap, hres.1.length_eq]
  · simp [composePages, hmap]

/-- C1 witness at a concrete one-record table. -/
theorem C1_one_page_per_record_witness :
    (composePages store0 [b1]).length =
      (([b1] : List Bill).filter (matchesQuery 1 "2024-03")).length ∧
    composePages store0 [b1] = ([b1] : List Bill).map (layoutPage store0) ∧
    ∀ b : Bill, (layoutPage store0 b).text =
      "Shop: " ++ b.shop ++ "\n" ++ "Amount: " ++ b.amount ++ "\n" ++
        "Date: " ++ b.bill_date ++ " " ++ b.bill_time :=
  C1_one_page_per_record [b1] 1 "2024-03" store0 [b1] (by decide) (by decide)

/-- C2: For every owner and month key whose match set is empty, the generated
document is exactly the single synthetic page of the fixed 595x842 dimensions,
carrying no image and only the fixed message; the empty case goes through the
normal page pipeline, not an error path. -/
theorem C2_empty_match_single_page (db : List Bill) (uid : Nat) (ym : String)
    (store : String → Option (Nat × Nat)) (res : List Bill)
    (hres : IsFetchResult db uid ym res)
    (hempty : db.filter (matchesQuery uid ym) = []) :
    composePages store res = [emptyPage] ∧
    (composePages store res).length = 1 ∧
    emptyPage.width = 595 ∧ emptyPage.height = 842 ∧
    emptyPage.image = none ∧ emptyPage.text = "No bills found for this month." := by
  have hnil : res = [] := List.Perm.eq_nil (hempty ▸ hres.1)
  subst hnil
  exact ⟨rfl, rfl, rfl, rfl, rfl, rfl⟩

/-- C2 witness at an empty table. -/
theorem C2_empty_match_single_page_witness :
    composePages store0 [] = [emptyPage] ∧
    (composePages store0 []).length = 1 ∧
    emptyPage.width = 595 ∧ emptyPage.height = 842 ∧
    emptyPage.image = none ∧ emptyPage.text = "No bills found for this month." :=
  C2_empty_match_single_page [] 1 "2024-03" store0 [] (by decide) (by decide)

/-- C3 counterexample: two bills with equal `bill_date` admit two distinct
valid results of the report query (the query sorts by `bill_date` alone), one
of which orders the tied records against ascending record identifier; so the
stable id tie-break and the order-determinism asserted by the claim fail. -/
theorem C3_counterexample :
    IsFetchResult dbTie 1 "2024-03" [bA, bB] ∧
    IsFetchResult dbTie 1 "2024-03" [bB, bA] ∧
    ([bA, bB] : List Bill) ≠ [bB, bA] ∧
    bA.id < bB.id ∧ bB.bill_date = bA.bill_date := by decide

/-- C3 amended: for every owner and month key, any result of the report
query is monotonic non-decreasing in `bill_date`; the result is deterministic
up to permutation (two valid results for the same record multiset, even from
permuted tables, are permutations of each other); and the page order follows
the fetched record order exactly. -/
theorem C3_amended_sorted_up_to_ties (db db' : List Bill) (uid : Nat) (ym : String)
    (store : String → Option (Nat × Nat)) (res res' : List Bill)
    (hperm : List.Perm db db')
    (h : IsFetchResult db uid ym res) (h' : IsFetchResult db' uid ym res') :
    List.Pairwise (fun a b => dateLe a b = true) res ∧
    List.Perm res res' ∧
    (res = [] ∨ composePages store res = res.map (layoutPage store)) := by
  refine ⟨h.2, ?_, ?_⟩
  · exact h.1.trans ((hperm.filter _).trans h'.1.symm)
  · cases res with
    | nil => exact Or.inl rfl
    | cons a l => exact Or.inr (by simp [composePages])

/-- C3 amended witness at the concrete tied table and its reversal. -/
theorem C3_amended_sorted_up_to_ties_witness :
    List.Pairwise (fun a b => dateLe a b = true) [bA, bB] ∧
    List.Perm [bA, bB] [bB, bA] ∧
    (([bA, bB] : List Bill) = [] ∨
      composePages store0 [bA, bB] = ([bA, bB] : List Bill).map (layoutPage store0)) :=
  C3_amended_sorted_up_to_ties dbTie [bB, bA] 1 "2024-03" store0 [bA, bB] [bB, bA]
    (by decide) (by decide) (by decide)

/-- C4: For every receipt record whose image reference cannot be read or
decoded, image resolution never fails outward: the fixed gray placeholder of
its expected 200x200 dimensions is substituted (it fits the bounding box, so
the thumbnail pass leaves it at those dimensions), the page's metadata text is
still rendered correctly, and the whole report still gets one page per record. -/
theorem C4_placeholder_on_failure (store : String → Option (Nat × Nat)) (b : Bill)
    (bills : List Bill) (hfail : store b.filename = none) (hmem : b ∈ bills) :
    (layoutPage store b).text = metadataText b ∧
    (layoutPage store b).image = some ⟨20, 150, ⟨200, 200, ImgSrc.placeholderGray⟩⟩ ∧
    (composePages store bills).length = bills.length ∧
    layoutPage store b ∈ composePages store bills := by
  have himg : resolveImage store b.filename = ⟨200, 200, ImgSrc.placeholderGray⟩ := by
    simp [resolveImage, hfail]
  have hmap : (bills.map (layoutPage store)).isEmpty = false := by
    cases bills with
    | nil => cases hmem
    | cons a l => rfl
  refine ⟨rfl, ?_, ?_, ?_⟩
  · have hi : (layoutPage store b).image =
        some ⟨20, 150, thumbnailImg (resolveImage store b.filename)⟩ := rfl
    rw [hi, himg]
    decide
  · simp [composePages, hmap]
  · simp only [composePages, hmap, Bool.false_eq_true, if_false]
    exact List.mem_map_of_mem _ hmem

/-- C4 witness at a store on which every read fails. -/
theorem C4_placeholder_on_failure_witness :
    (layoutPage store0 b1).text = metadataText b1 ∧
    (layoutPage store0 b1).image = some ⟨20, 150, ⟨200, 200, ImgSrc.placeholderGray⟩⟩ ∧
    (composePages store0 [b1]).length = ([b1] : List Bill).length ∧
    layoutPage store0 b1 ∈ composePages store0 [b1] :=
  C4_placeholder_on_failure store0 b1 [b1] rfl (by decide)

/-- C6 counterexample: the save of a concrete one-page document writes
directly at the published path (its very first operation truncates that
path), so the trace is not an atomic temporary-write-then-rename publish. -/
theorem C6_counterexample :
    ¬ AtomicPublishSpec (saveTrace (reportPath 1 "2024-03") [emptyPage])
      (reportPath 1 "2024-03") := by
  intro h
  have h1 := h.1 (FsOp.openTrunc (reportPath 1 "2024-03")) (by decide)
  simp [touches] at h1

/-- C6 amended: publication is not atomic: the serializer opens the published
(owner, month) path itself and writes the document into it in place; every
filesystem operation of the save touches the published path and none is a
rename, so a partially written artifact is visible at the published key while
a write is in progress or after a failed write. -/
theorem C6_amended_direct_overwrite (uid : Nat) (ym : String) (pages : List Page) :
    (∀ op ∈ saveTrace (reportPath uid ym) pages, touches op (reportPath uid ym) = true) ∧
    ∀ op ∈ saveTrace (reportPath uid ym) pages, ∀ src dst, op ≠ FsOp.renameOp src dst := by
  constructor
  · intro op hop
    simp only [saveTrace, List.mem_cons, List.mem_map] at hop
    rcases hop with h | ⟨i, _, h⟩
    · subst h; simp [touches]
    · subst h; simp [touches]
  · intro op hop src dst
    simp only [saveTrace, List.mem_cons, List.mem_map] at hop
    rcases hop with h | ⟨i, _, h⟩
    · subst h; simp
    · subst h; simp

/-- C6 amended witness: the first operation of a concrete save touches the
published path. -/
theorem C6_amended_direct_overwrite_witness :
    touches (FsOp.openTrunc (reportPath 1 "2024-03")) (reportPath 1 "2024-03") = true :=
  (C6_amended_direct_overwrite 1 "2024-03" [emptyPage]).1
    (FsOp.openTrunc (reportPath 1 "2024-03")) (by simp [saveTrace])

/-- C7 counterexample: the malformed month key "2024" (not of the form
YYYY-MM) nevertheless matches a stored record, because the selection filter
is the LIKE pattern `key + "%"`, a prefix match of the key's own length, not
of 7 characters. -/
theorem C7_counterexample :
    wellFormedKey "2024" = false ∧
    matchesQuery 1 "2024" bA = true ∧
    List.filter (matchesQuery 1 "2024") dbTie ≠ [] := by decide

/-- C7 amended: the selection predicate is the SQL LIKE pattern `key + "%"`,
a left-anchored prefix match of the key's own length (7 characters exactly
when the key is well-formed YYYY-MM); a malformed key may still match records
whose dates extend it, and any key that LIKE-matches no stored date degrades
to the one-page 'no receipts' document rather than raising. -/
theorem C7_amended_unmatched_key_empty_doc (db : List Bill) (uid : Nat) (key : String)
    (store : String → Option (Nat × Nat)) (res : List Bill)
    (hnomatch : ∀ b ∈ db, likeMatch (key.data ++ ['%']) b.bill_date.data = false)
    (h : IsFetchResult db uid key res) :
    composePages store res = [emptyPage] ∧ (composePages store res).length = 1 := by
  have hfilter : db.filter (matchesQuery uid key) = [] := by
    rw [List.filter_eq_nil_iff]
    intro b hb
    simp [matchesQuery, hnomatch b hb]
  have hnil : res = [] := List.Perm.eq_nil (hfilter ▸ h.1)
  subst hnil
  exact ⟨rfl, rfl⟩

/-- C7 amended witness at a key matching none of the stored dates. -/
theorem C7_amended_unmatched_key_empty_doc_witness :
    composePages store0 [] = [emptyPage] ∧ (composePages store0 []).length = 1 :=
  C7_amended_unmatched_key_empty_doc dbTie 1 "1999-12" store0 [] (by decide) (by decide)

/-- C8: the download-facing suggested filename depends only on the month key
and never on the owner: any two owners requesting the same month get the
identical suggested name, which is `report_` plus the month key plus `.pdf`,
while the internal storage path does embed the owner identifier. -/
theorem C8_filename_independent_of_owner (u1 u2 : Nat) (ym : String) :
    (reportResponse u1 ym).filename = (reportResponse u2 ym).filename ∧
    (reportResponse u1 ym).filename = "report_" ++ ym ++ ".pdf" ∧
    (reportResponse u1 ym).path =
      "user_data/" ++ "report_" ++ toString u1 ++ "_" ++ ym ++ ".pdf" ∧
    (reportResponse u1 ym).media_type = "application/pdf" :=
  ⟨rfl, rfl, rfl, rfl⟩

/-- C10: the page list handed to the serializer is never empty: the empty
branch supplies the synthetic page, so indexing the first page always
succeeds and a zero-page save can never be attempted. -/
theorem C10_pages_nonempty (store : String → Option (Nat × Nat)) (bills : List Bill)
    (path : String) :
    composePages store bills ≠ [] ∧
    0 < (composePages store bills).length ∧
    (saveDocument path (composePages store bills)).isSome = true := by
  cases bills with
  | nil => exact ⟨by simp [composePages], by simp [composePages], rfl⟩
  | cons b l =>
    have h : composePages store (b :: l) = layoutPage store b :: l.map (layoutPage store) := by
      simp [composePages]
    rw [h]
    exact ⟨by simp, by simp, rfl⟩

theorem char_toNat_inj {c d : Char} (h : c.toNat = d.toNat) : c = d := by
  have h2 := congrArg Char.ofNat h
  simpa using h2

theorem likeFold_beq_of_plain (p d : Char) (hp : plainLikeChar p) :
    (likeFold p == likeFold d) = (p == d) := by
  obtain ⟨hp1, hp2, hp3, hp4⟩ := hp
  have hfp : likeFold p = p.toNat := by
    unfold likeFold
    rw [if_neg]
    simp only [Bool.and_eq_true, decide_eq_true_iff]
    omega
  by_cases hpd : p = d
  · subst hpd
    simp
  · have hrhs : (p == d) = false := beq_eq_false_iff_ne.mpr hpd
    rw [hrhs, hfp]
    unfold likeFold
    split
    · rename_i hd
      simp only [Bool.and_eq_true, decide_eq_true_iff] at hd
      apply beq_eq_false_iff_ne.mpr
      omega
    · apply beq_eq_false_iff_ne.mpr
      intro he
      exact hpd (char_toNat_inj he)

theorem tails_any_isEmpty (s : List Char) :
    (s.tails.any fun t => t.isEmpty) = true := by
  induction s with
  | nil => rfl
  | cons c cs ih => simp [List.tails_cons, List.any_cons, ih]

theorem likeMatch_append_percent :
    ∀ ps : List Char, (∀ c ∈ ps, plainLikeChar c) →
      ∀ s : List Char, likeMatch (ps ++ ['%']) s = ps.isPrefixOf s := by
  intro ps
  induction ps with
  | nil =>
    intro _ s
    show likeMatch ['%'] s = List.isPrefixOf [] s
    rw [List.isPrefixOf_nil_left]
    show (if (Char.ofNat 37 : Char) = Char.ofNat 37 then s.tails.any (fun t => likeMatch [] t)
      else _) = true
    rw [if_pos rfl]
    calc s.tails.any (fun t => likeMatch [] t)
        = s.tails.any (fun t => t.isEmpty) := rfl
      _ = true := tails_any_isEmpty s
  | cons p ps ih =>
    intro hps s
    obtain hp := hps p (List.mem_cons_self p ps)
    have hps2 : ∀ c ∈ ps, plainLikeChar c := fun c hc => hps c (List.mem_cons_of_mem _ hc)
    have hpnot1 : ¬ p = '%' := by
      intro he
      exact hp.1 (by rw [he]; rfl)
    have hpnot2 : ¬ p = '_' := by
      intro he
      exact hp.2.1 (by rw [he]; rfl)
    cases s with
    | nil =>
      show (if p = '%' then _ else if p = '_' then _ else false) = _
      rw [if_neg hpnot1, if_neg hpnot2]
      rfl
    | cons d ds =>
      show (if p = '%' then _ else if p = '_' then _
        else (likeFold p == likeFold d) && likeMatch (ps ++ ['%']) ds) = _
      rw [if_neg hpnot1, if_neg hpnot2, likeFold_beq_of_plain p d hp, ih hps2 ds]
      rfl

theorem isPrefixOf_iff_take (k : List Char) :
    ∀ s : List Char, k.isPrefixOf s = true ↔ s.take k.length = k := by
  induction k with
  | nil =>
    intro s
    simp
  | cons c k ih =>
    intro s
    cases s with
    | nil => simp
    | cons d ds =>
      rw [List.isPrefixOf_cons₂]
      simp only [List.length_cons, List.take_succ_cons, Bool.and_eq_true, beq_iff_eq,
        List.cons.injEq, ih ds]
      constructor
      · rintro ⟨h1, h2⟩
        exact ⟨h1.symm, h2⟩
      · rintro ⟨h1, h2⟩
        exact ⟨h1.symm, h2⟩

theorem plain_of_isDigit {c : Char} (h : isDigit c = true) : plainLikeChar c := by
  simp only [isDigit, Bool.and_eq_true, decide_eq_true_iff] at h
  refine ⟨by omega, by omega, by omega, by omega⟩

theorem wellFormedKey_chars (K : String) (h : wellFormedKey K = true) :
    K.data.length = 7 ∧ ∀ c ∈ K.data, plainLikeChar c := by
  unfold wellFormedKey at h
  split at h
  · rename_i y1 y2 y3 y4 sep m1 m2 heq
    simp only [Bool.and_eq_true, beq_iff_eq] at h
    obtain ⟨⟨⟨⟨⟨⟨h1, h2⟩, h3⟩, h4⟩, h5⟩, h6⟩, h7⟩ := h
    subst h5
    rw [heq]
    refine ⟨rfl, ?_⟩
    intro c hc
    simp only [List.mem_cons, List.not_mem_nil, or_false] at hc
    rcases hc with rfl | rfl | rfl | rfl | rfl | rfl | rfl
    · exact plain_of_isDigit h1
    · exact plain_of_isDigit h2
    · exact plain_of_isDigit h3
    · exact plain_of_isDigit h4
    · exact ⟨by decide, by decide, by decide, by decide⟩
    · exact plain_of_isDigit h6
    · exact plain_of_isDigit h7
  · exact absurd h (by simp)

/-- C9: a bill contributes to the stats endpoint's monthly total for a
well-formed key K exactly when the report query for K selects it: the
7-character slice used for grouping and the LIKE prefix pattern used for
selection derive the same month. -/
theorem C9_month_derivation_consistent (K : String) (uid : Nat) (b : Bill)
    (hK : wellFormedKey K = true) :
    statsGroupsTo uid K b = matchesQuery uid K b := by
  obtain ⟨hlen, hchars⟩ := wellFormedKey_chars K hK
  unfold statsGroupsTo matchesQuery statsMonth
  congr 1
  rw [likeMatch_append_percent K.data hchars b.bill_date.data]
  rw [Bool.eq_iff_iff]
  rw [beq_iff_eq, ← hlen, isPrefixOf_iff_take]

/-- C9 witness at a concrete key and bill. -/
theorem C9_month_derivation_consistent_witness :
    statsGroupsTo 1 "2024-03" b1 = matchesQuery 1 "2024-03" b1 :=
  C9_month_derivation_consistent "2024-03" 1 b1 (by decide)

theorem floor_facts (A h : Nat) (h0 : 0 < h) :
    A / h * h ≤ A ∧ A < A / h * h + h := by
  have hd := Nat.div_add_mod A h
  have hm : A % h < h := Nat.mod_lt _ h0
  have he : A / h * h = h * (A / h) := Nat.mul_comm _ _
  rw [he]
  generalize h * (A / h) = P at hd ⊢
  generalize A % h = r at hd hm
  omega

theorem ceil_facts (A h : Nat) (h0 : 0 < h) :
    A ≤ ceilDiv A h * h ∧ ceilDiv A h * h ≤ A + h - 1 := by
  unfold ceilDiv
  have hd := Nat.div_add_mod (A + h - 1) h
  have hm : (A + h - 1) % h < h := Nat.mod_lt _ h0
  have he : (A + h - 1) / h * h = h * ((A + h - 1) / h) := Nat.mul_comm _ _
  rw [he]
  generalize h * ((A + h - 1) / h) = P at hd ⊢
  generalize (A + h - 1) % h = r at hd hm
  omega

theorem ceilDiv_le {A h B : Nat} (h0 : 0 < h) (hAB : A ≤ B * h) : ceilDiv A h ≤ B := by
  unfold ceilDiv
  have hlt : A + h - 1 < (B + 1) * h := by
    have he : (B + 1) * h = B * h + h := by ring
    omega
  have := (Nat.div_lt_iff_lt_mul h0).mpr hlt
  omega

theorem clampBound (n A h : Nat) (h0 : 0 < h) (hlo : A ≤ n * h + h) (hhi : n * h ≤ A + h) :
    max n 1 * h ≤ A + h ∧ A ≤ max n 1 * h + h := by
  rcases Nat.eq_zero_or_pos n with rfl | hn
  · simp only [Nat.zero_mul] at hlo hhi
    rw [show max 0 1 = 1 from rfl]
    constructor <;> omega
  · rw [Nat.max_eq_left hn]
    exact ⟨hhi, hlo⟩

theorem pickX_le (A h B : Nat) (h0 : 0 < h) (hAB : A ≤ B * h) : pickX A h ≤ B := by
  unfold pickX
  split
  · exact Nat.div_le_of_le_mul (by rw [Nat.mul_comm] at hAB; exact hAB)
  · exact ceilDiv_le h0 hAB

theorem pickX_ratio (A h : Nat) (h0 : 0 < h) :
    max (pickX A h) 1 * h ≤ A + h ∧ A ≤ max (pickX A h) 1 * h + h := by
  have hf := floor_facts A h h0
  have hc := ceil_facts A h h0
  unfold pickX
  split
  · exact clampBound (A / h) A h h0 (Nat.le_of_lt hf.2)
      (Nat.le_trans hf.1 (Nat.le_add_right A h))
  · exact clampBound (ceilDiv A h) A h h0
      (Nat.le_trans hc.1 (Nat.le_add_right _ h))
      (Nat.le_trans hc.2 (by omega))

theorem pickY_le (B w C : Nat) (h0 : 0 < w) (hBC : B ≤ C * w) : pickY B w ≤ C := by
  unfold pickY
  split
  · exact Nat.zero_le C
  split
  · exact Nat.div_le_of_le_mul (by rw [Nat.mul_comm] at hBC; exact hBC)
  · exact ceilDiv_le h0 hBC

theorem pickY_ratio (B w : Nat) (h0 : 0 < w) :
    max (pickY B w) 1 * w ≤ B + w ∧ B ≤ max (pickY B w) 1 * w + w := by
  have hf := floor_facts B w h0
  have hc := ceil_facts B w h0
  unfold pickY
  split
  · rename_i hfl0
    rw [hfl0] at hf
    simp only [Nat.zero_mul] at hf
    rw [show max 0 1 = 1 from rfl]
    constructor <;> omega
  split
  · exact clampBound (B / w) B w h0 (Nat.le_of_lt hf.2)
      (Nat.le_trans hf.1 (Nat.le_add_right B w))
  · exact clampBound (ceilDiv B w) B w h0
      (Nat.le_trans hc.1 (Nat.le_add_right _ w))
      (Nat.le_trans hc.2 (by omega))

/-- C5: for every image of positive dimensions, the thumbnail pass fits the
result inside the 555x600 bounding box on both axes, never upscales either
axis beyond the native size, and preserves the width/height ratio within
rounding tolerance (one axis is pinned to the box and the cross products
agree within one denominator unit), both when the image already fits and
when it must shrink. -/
theorem C5_thumbnail_policy (w h : Nat) (hw : 1 ≤ w) (hh : 1 ≤ h) :
    ((thumbnailDims 555 600 w h).1 ≤ 555 ∧ (thumbnailDims 555 600 w h).2 ≤ 600) ∧
    ((thumbnailDims 555 600 w h).1 ≤ w ∧ (thumbnailDims 555 600 w h).2 ≤ h) ∧
    ((w ≤ 555 ∧ h ≤ 600 ∧ thumbnailDims 555 600 w h = (w, h)) ∨
     ((thumbnailDims 555 600 w h).2 = 600 ∧
       (thumbnailDims 555 600 w h).1 * h ≤ 600 * w + h ∧
       600 * w ≤ (thumbnailDims 555 600 w h).1 * h + h) ∨
     ((thumbnailDims 555 600 w h).1 = 555 ∧
       (thumbnailDims 555 600 w h).2 * w ≤ 555 * h + w ∧
       555 * h ≤ (thumbnailDims 555 600 w h).2 * w + w)) := by
  unfold thumbnailDims
  split
  · rename_i hfit
    exact ⟨⟨hfit.1, hfit.2⟩, ⟨Nat.le_refl w, Nat.le_refl h⟩, Or.inl ⟨hfit.1, hfit.2, rfl⟩⟩
  · rename_i hfit
    split
    · rename_i hcond
      have hh600 : 600 < h := by omega
      have h0 : 0 < h := by omega
      have hx1 : pickX (600 * w) h ≤ 555 := pickX_le _ h 555 h0 hcond
      have hx2 : pickX (600 * w) h ≤ w := by
        refine pickX_le _ h w h0 ?_
        calc 600 * w ≤ h * w := Nat.mul_le_mul_right w (by omega)
          _ = w * h := Nat.mul_comm h w
      have hrat := pickX_ratio (600 * w) h h0
      refine ⟨⟨Nat.max_le.mpr ⟨hx1, by omega⟩, Nat.le_refl 600⟩,
        ⟨Nat.max_le.mpr ⟨hx2, hw⟩, by omega⟩,
        Or.inr (Or.inl ⟨rfl, hrat.1, hrat.2⟩)⟩
    · rename_i hcond
      have hw555 : 555 < w := by omega
      have h0 : 0 < w := by omega
      have hy1 : pickY (555 * h) w ≤ 600 := pickY_le _ w 600 h0 (by omega)
      have hy2 : pickY (555 * h) w ≤ h := by
        refine pickY_le _ w h h0 ?_
        calc 555 * h ≤ w * h := Nat.mul_le_mul_right h (by omega)
          _ = h * w := Nat.mul_comm w h
      have hrat := pickY_ratio (555 * h) w h0
      refine ⟨⟨Nat.le_refl 555, Nat.max_le.mpr ⟨hy1, by omega⟩⟩,
        ⟨hw555.le, Nat.max_le.mpr ⟨hy2, hh⟩⟩,
        Or.inr (Or.inr ⟨rfl, hrat.1, hrat.2⟩)⟩

/-- C5 witness at one image larger than the box and the bound evaluation for
one smaller than the box. -/
theorem C5_thumbnail_policy_witness :
    ((thumbnailDims 555 600 1000 400).1 ≤ 555 ∧ (thumbnailDims 555 600 1000 400).2 ≤ 600) ∧
    ((thumbnailDims 555 600 1000 400).1 ≤ 1000 ∧ (thumbnailDims 555 600 1000 400).2 ≤ 400) ∧
    ((1000 ≤ 555 ∧ 400 ≤ 600 ∧ thumbnailDims 555 600 1000 400 = (1000, 400)) ∨
     ((thumbnailDims 555 600 1000 400).2 = 600 ∧
       (thumbnailDims 555 600 1000 400).1 * 400 ≤ 600 * 1000 + 400 ∧
       600 * 1000 ≤ (thumbnailDims 555 600 1000 400).1 * 400 + 400) ∨
     ((thumbnailDims 555 600 1000 400).1 = 555 ∧
       (thumbnailDims 555 600 1000 400).2 * 1000 ≤ 555 * 400 + 1000 ∧
       555 * 400 ≤ (thumbnailDims 555 600 1000 400).2 * 1000 + 1000)) :=
  C5_thumbnail_policy 1000 400 (by decide) (by decide)

end BillReceipt
